import Mathlib

/-!
Verification of the human-head-viewer data-preparation utilities.

This file embeds the four Python scripts of the repository
(`downsample-ply.py`, `generate-tissue-properties.py`,
`convert-mat-to-vtk.py`, `downsample-vti.py`) as executable Lean
definitions and proves properties of them.

Modelling conventions:
* A PLY input stream is modelled as the list of its (stripped) ASCII
  header lines together with the list of binary body bytes.
* 32-bit float vertex coordinates are modelled by their bit patterns
  (natural numbers below 2^32): `struct.unpack` / `struct.pack` of the
  format char f performs no arithmetic, so the codec acts on patterns.
* Face indices are modelled as the mathematical values of the `np.int32`
  entries the reader produces (integers in [-2^31, 2^31)).
* Python exceptions (`ValueError`, `struct.error`, `IndexError`) are
  modelled by the `Except String` error case; the message is the one the
  source raises where it raises one.
* `f.readline()` at end of file returns an empty string forever, so the
  header loop of the reader never terminates on a stream with no
  `end_header` line; termination with no mesh is modelled as an error.
* Spreadsheet cells are modelled as `Option ℚ` (`none` is the empty
  cell); float literals such as 1e-12 are modelled by the exact rational
  they denote, which is faithful for the verbatim-versus-scaled
  questions asked here.
-/

/-- Little-endian bytes of a 32-bit word, as written by `struct.pack`
with format char I (and, on bit patterns, f). -/
def le32 (w : Nat) : List Nat :=
  [w % 256, w / 256 % 256, w / 65536 % 256, w / 16777216 % 256]

/-- Reinterpret a 32-bit unsigned word as the value of an `np.int32`,
as happens in `np.array(faces, dtype=np.int32)`. -/
def toInt32 (w : Nat) : Int :=
  if w % 4294967296 < 2147483648 then ((w % 4294967296 : Nat) : Int)
  else ((w % 4294967296 : Nat) : Int) - 4294967296

/-- The mesh data model of `downsample-ply.py`: `vertices` is the
`(N,3)` float32 array (coordinates as bit patterns), `faces` the
`(M,3)` int32 array (values), `tissue_ids` the `(N,)` uint8 array. -/
structure Mesh where
  vertices : List (Nat × Nat × Nat)
  faces : List (Int × Int × Int)
  tissue_ids : List Nat
deriving DecidableEq

/-- Characters of a string literal, used to spell header lines. -/
def strL (s : String) : List Char := s.toList

/-- Whitespace test used by Python `str.split()` (the characters that
occur in this format). -/
def pyIsSpace (c : Char) : Bool :=
  c == ' ' || c == '\t' || c == '\n' || c == '\r'

/-- Worker for `pyWords`; `acc` holds the current word reversed. -/
def wordsAux : List Char → List Char → List (List Char)
  | [], acc => if acc.isEmpty then [] else [acc.reverse]
  | c :: cs, acc =>
    if pyIsSpace c then
      if acc.isEmpty then wordsAux cs [] else acc.reverse :: wordsAux cs []
    else wordsAux cs (c :: acc)

/-- Python `str.split()`: maximal runs of non-whitespace characters. -/
def pyWords (l : List Char) : List (List Char) := wordsAux l []

/-- Decimal digit value of a character, if it is a digit. -/
def digitVal? (c : Char) : Option Nat :=
  if '0' ≤ c ∧ c ≤ '9' then some (c.toNat - 48) else none

/-- Worker for `pyParseNat`. -/
def parseNatAux : List Char → Nat → Option Nat
  | [], acc => some acc
  | c :: cs, acc =>
    match digitVal? c with
    | some d => parseNatAux cs (10 * acc + d)
    | none => none

/-- Model of `int(token)` for the counts of the header.  A token that is
not a plain run of decimal digits is rejected: for genuinely malformed
tokens Python `int` raises, and for a negative token the later
`np.zeros((count, 3))` raises, so in every such case the read fails. -/
def pyParseNat (l : List Char) : Option Nat :=
  if l.isEmpty then none else parseNatAux l 0

/-- Decimal digit character. -/
def digitChar10 (d : Nat) : Char := Char.ofNat (48 + d)

/-- Decimal rendering of a natural number, as Python `str(n)` inside the
f-string header (most significant digit first). -/
def natChars (n : Nat) : List Char :=
  if n = 0 then ['0'] else ((Nat.digits 10 n).reverse.map digitChar10)

/-- Header state accumulated by the reader loop of
`read_ply_with_tissue_id`. -/
structure PlyHeader where
  format_type : Option (List Char)
  vertex_count : Nat
  face_count : Nat
  has_tissue_id : Bool
deriving DecidableEq

/-- Result of processing one header line. -/
inductive HeaderStep where
  | stop : HeaderStep
  | fail : String → HeaderStep
  | next : PlyHeader → HeaderStep
deriving DecidableEq

/-- One iteration of the header `while` loop of
`read_ply_with_tissue_id` (lines 25-36 of `downsample-ply.py`), with
the branch tests in source order. -/
def headerStep (l : List Char) (st : PlyHeader) : HeaderStep :=
  if l == strL "end_header" then .stop
  else if (strL "format").isPrefixOf l then
    match (pyWords l)[1]? with
    | some t => .next { st with format_type := some t }
    | none => .fail "IndexError"
  else if (strL "element vertex").isPrefixOf l then
    match (pyWords l)[2]? with
    | some t =>
      match pyParseNat t with
      | some n => .next { st with vertex_count := n }
      | none => .fail "ValueError: invalid literal for int"
    | none => .fail "IndexError"
  else if (strL "element face").isPrefixOf l then
    match (pyWords l)[2]? with
    | some t =>
      match pyParseNat t with
      | some n => .next { st with face_count := n }
      | none => .fail "ValueError: invalid literal for int"
    | none => .fail "IndexError"
  else if l == strL "property uchar tissue_id" then
    .next { st with has_tissue_id := true }
  else .next st

/-- The header `while` loop.  Running out of lines corresponds to the
Python loop spinning on the empty strings `readline` yields at end of
file; no mesh is produced in either semantics. -/
def parseHeaderLoop : List (List Char) → PlyHeader → Except String PlyHeader
  | [], _ => .error "unterminated header"
  | l :: rest, st =>
    match headerStep l st with
    | .stop => .ok st
    | .fail msg => .error msg
    | .next st2 => parseHeaderLoop rest st2

/-- `struct.unpack` of format char B on the byte stream. -/
def rdByte : List Nat → Option (Nat × List Nat)
  | b :: rest => some (b, rest)
  | [] => none

/-- `struct.unpack` of a little-endian 32-bit word on the byte stream. -/
def rdWord32 : List Nat → Option (Nat × List Nat)
  | b0 :: b1 :: b2 :: b3 :: rest =>
    some (b0 + 256 * b1 + 65536 * b2 + 16777216 * b3, rest)
  | _ => none

/-- The vertex-reading loop (lines 48-52): `vertex_count` records of
3 float32 plus 1 uint8.  A short read makes `struct.unpack` raise. -/
def readVertices : Nat → List Nat →
    Except String (List (Nat × Nat × Nat) × List Nat × List Nat)
  | 0, bs => .ok ([], [], bs)
  | n + 1, bs =>
    match rdWord32 bs with
    | none => .error "struct.error"
    | some (x, bs1) =>
      match rdWord32 bs1 with
      | none => .error "struct.error"
      | some (y, bs2) =>
        match rdWord32 bs2 with
        | none => .error "struct.error"
        | some (z, bs3) =>
          match rdByte bs3 with
          | none => .error "struct.error"
          | some (t, bs4) =>
            match readVertices n bs4 with
            | .ok (vs, ts, rest) => .ok ((x, y, z) :: vs, t % 256 :: ts, rest)
            | .error e => .error e

/-- The face-reading loop (lines 55-61): an arity byte that must equal
3, then three little-endian uint32 indices, stored as int32. -/
def readFaces : Nat → List Nat →
    Except String (List (Int × Int × Int) × List Nat)
  | 0, bs => .ok ([], bs)
  | n + 1, bs =>
    match rdByte bs with
    | none => .error "struct.error"
    | some (nv, bs1) =>
      if nv = 3 then
        match rdWord32 bs1 with
        | none => .error "struct.error"
        | some (i0, bs2) =>
          match rdWord32 bs2 with
          | none => .error "struct.error"
          | some (i1, bs3) =>
            match rdWord32 bs3 with
            | none => .error "struct.error"
            | some (i2, bs4) =>
              match readFaces n bs4 with
              | .ok (fs, rest) =>
                .ok ((toInt32 i0, toInt32 i1, toInt32 i2) :: fs, rest)
              | .error e => .error e
      else .error "Only triangular faces supported"

/-- The supported format token. -/
def bleTok : List Char := strL "binary_little_endian"

/-- `read_ply_with_tissue_id` of `downsample-ply.py` on a stream given
as header lines plus body bytes. -/
def read_ply_with_tissue_id (lines : List (List Char)) (body : List Nat) :
    Except String Mesh :=
  match lines with
  | [] => .error "Not a PLY file"
  | l0 :: rest =>
    if l0 = strL "ply" then
      match parseHeaderLoop rest ⟨none, 0, 0, false⟩ with
      | .error e => .error e
      | .ok st =>
        if st.has_tissue_id then
          if st.format_type = some bleTok then
            match readVertices st.vertex_count body with
            | .error e => .error e
            | .ok (vs, ts, bs2) =>
              match readFaces st.face_count bs2 with
              | .error e => .error e
              | .ok (fs, _) => .ok ⟨vs, fs, ts⟩
          else .error "Only binary_little_endian format supported"
        else .error "PLY file does not have tissue_id property"
    else .error "Not a PLY file"

/-- Body bytes for the vertex records: 3 float32 patterns plus the
uint8 tissue id, per vertex. -/
def encVertexBytes : List ((Nat × Nat × Nat) × Nat) → List Nat
  | [] => []
  | ((x, y, z), t) :: rest =>
    le32 x ++ le32 y ++ le32 z ++ (t % 256 :: encVertexBytes rest)

/-- `struct.pack` of format char I: accepts exactly [0, 2^32).  A
negative `np.int32` face entry makes it raise. -/
def packIdx (c : Int) : Except String (List Nat) :=
  if 0 ≤ c ∧ c < 4294967296 then .ok (le32 c.toNat)
  else .error "struct.error: argument out of range"

/-- Face records as written by lines 97-99: arity byte 3 then the three
indices; no bounds check against the vertex count is performed. -/
def encFaceBytes : List (Int × Int × Int) → Except String (List Nat)
  | [] => .ok []
  | (a, b, c) :: rest =>
    match packIdx a with
    | .error e => .error e
    | .ok ba =>
      match packIdx b with
      | .error e => .error e
      | .ok bb =>
        match packIdx c with
        | .error e => .error e
        | .ok bc =>
          match encFaceBytes rest with
          | .error e => .error e
          | .ok brest => .ok (3 :: (ba ++ bb ++ bc ++ brest))

/-- The header written by `write_ply_with_tissue_id` (lines 73-84),
split into its lines. -/
def headerLines (nv nf : Nat) : List (List Char) :=
  [strL "ply",
   strL "format binary_little_endian 1.0",
   strL "comment Downsampled human head model with tissue IDs",
   strL "element vertex " ++ natChars nv,
   strL "property float x",
   strL "property float y",
   strL "property float z",
   strL "property uchar tissue_id",
   strL "element face " ++ natChars nf,
   strL "property list uchar int vertex_indices",
   strL "end_header"]

/-- `write_ply_with_tissue_id` of `downsample-ply.py`: produces the
header lines and the body bytes.  `tissue_ids[i]` for `i` up to the
vertex count raises `IndexError` when the label array is shorter. -/
def write_ply_with_tissue_id (m : Mesh) :
    Except String (List (List Char) × List Nat) :=
  if m.tissue_ids.length < m.vertices.length then .error "IndexError"
  else
    match encFaceBytes m.faces with
    | .error e => .error e
    | .ok fb =>
      .ok (headerLines m.vertices.length m.faces.length,
        encVertexBytes (m.vertices.zip m.tissue_ids) ++ fb)

/-- Encode, then decode the result: the codec round trip. -/
def decodeEncoded (m : Mesh) : Except String Mesh :=
  match write_ply_with_tissue_id m with
  | .error e => .error e
  | .ok p => read_ply_with_tissue_id p.1 p.2

/-- Whether an `Except` computation succeeded. -/
def isOkE {α : Type} (e : Except String α) : Bool :=
  match e with
  | .ok _ => true
  | .error _ => false

/-- A face entry is a usable vertex index: nonnegative (hence inside
the int32 range of the `faces` dtype) and below the vertex count. -/
def faceIdxOk (nv : Nat) (c : Int) : Prop :=
  0 ≤ c ∧ c < (nv : Int) ∧ c < 2147483648

/-- The mesh invariants of the spec (section 3): at least one vertex
and one triangular face, one uint8 label per vertex, float32 coordinate
patterns, and every face index in range (as an `np.int32` value). -/
def validMesh (m : Mesh) : Prop :=
  m.vertices ≠ [] ∧ m.faces ≠ [] ∧
  m.tissue_ids.length = m.vertices.length ∧
  (∀ v ∈ m.vertices,
    v.1 < 4294967296 ∧ v.2.1 < 4294967296 ∧ v.2.2 < 4294967296) ∧
  (∀ t ∈ m.tissue_ids, t < 256) ∧
  (∀ f ∈ m.faces, faceIdxOk m.vertices.length f.1 ∧
    faceIdxOk m.vertices.length f.2.1 ∧ faceIdxOk m.vertices.length f.2.2)

instance (m : Mesh) : Decidable (validMesh m) := by
  unfold validMesh faceIdxOk; infer_instance

/-- Value of a finite float32 bit pattern, exactly, in units of
2^(-149) (the smallest positive subnormal), so that every finite
float32 value is an integer; `none` when the exponent field is 255
(infinity or NaN).  The scaling is a fixed global unit, so nearest
points under this valuation are exactly the nearest points under the
real float32 values. -/
def toValZ (w : Nat) : Option ℤ :=
  let s := w / 2147483648 % 2
  let e := w / 8388608 % 256
  let f := w % 8388608
  if e = 255 then none
  else
    let mag : ℤ :=
      if e = 0 then (f : ℤ)
      else ((8388608 + f : ℕ) : ℤ) * 2 ^ (e - 1)
    some (if s = 1 then -mag else mag)

/-- Value triple of a vertex, defined when all coordinates are finite. -/
def ptValZ (p : Nat × Nat × Nat) : Option (ℤ × ℤ × ℤ) :=
  match toValZ p.1, toValZ p.2.1, toValZ p.2.2 with
  | some a, some b, some c => some (a, b, c)
  | _, _, _ => none

/-- Squared Euclidean distance of two value triples (in squared
units). -/
def sqDistZ (a b : ℤ × ℤ × ℤ) : ℤ :=
  (a.1 - b.1) ^ 2 + (a.2.1 - b.2.1) ^ 2 + (a.2.2 - b.2.2) ^ 2

/-- Squared distance of two stored points, when both are finite. -/
def distOpt (p q : Nat × Nat × Nat) : Option ℤ :=
  match ptValZ p, ptValZ q with
  | some a, some b => some (sqDistZ a b)
  | _, _ => none

/-- Scan of the candidate list keeping the first index of strictly
minimal distance; candidates without a finite distance never replace
the best (a NaN comparison is false). -/
def nnAux (q : Nat × Nat × Nat) :
    List (Nat × Nat × Nat) → Nat → Nat × Option ℤ → Nat × Option ℤ
  | [], _, best => best
  | p :: rest, i, (bi, bd) =>
    match distOpt p q, bd with
    | some d, some b =>
      if d < b then nnAux q rest (i + 1) (i, some d)
      else nnAux q rest (i + 1) (bi, some b)
    | some d, none => nnAux q rest (i + 1) (i, some d)
    | none, _ => nnAux q rest (i + 1) (bi, bd)

/-- Modelled from the spec: the external `scipy.spatial.cKDTree` exact
nearest-neighbor query of `downsample-ply.py` line 129 (the library is
not part of this repository).  Section 4.2 step 2 of the spec requires
exact closest-point semantics with an arbitrary but fixed tie
resolution; the model returns the first index of minimal exact squared
Euclidean distance over the original point set. -/
def nearestIdx (pts : List (Nat × Nat × Nat)) (q : Nat × Nat × Nat) : Nat :=
  (nnAux q pts 0 (0, none)).1

/-- Label transfer (lines 128-130): every new vertex receives the label
of its nearest original vertex, `new_tissue_ids = tissue_ids[indices]`. -/
def transferLabels (origVerts : List (Nat × Nat × Nat)) (origLabels : List Nat)
    (newVerts : List (Nat × Nat × Nat)) : List Nat :=
  newVerts.map (fun q => origLabels.getD (nearestIdx origVerts q) 0)

/-- `downsample_ply` of `downsample-ply.py`, parametrized by the output
of the external `pyfqmr` simplifier (an external capability per the
spec; its returned labels are discarded by the source, which rederives
them by nearest neighbor).  `factor` only fixes the target face count
handed to the simplifier. -/
def downsample_ply (m : Mesh) (factor : Nat)
    (simplifier : Nat → List (Nat × Nat × Nat) × List (Int × Int × Int)) :
    Mesh :=
  let simplified := simplifier (m.faces.length / factor ^ 2)
  { vertices := simplified.1,
    faces := simplified.2,
    tissue_ids := transferLabels m.vertices m.tissue_ids simplified.1 }

/-- Strip the characters satisfying `p` from both ends of a list. -/
def dropEnds (p : Char → Bool) (cs : List Char) : List Char :=
  ((cs.dropWhile p).reverse.dropWhile p).reverse

/-- Python `str.strip()` on a cell string. -/
def pyStrip (cs : List Char) : List Char := dropEnds pyIsSpace cs

/-- Python `str.strip` of the double-quote character. -/
def stripQuotes (cs : List Char) : List Char :=
  dropEnds (fun c => c == '"') cs

/-- Worker for `splitOnAt`; keeps empty segments, as Python
`str.split` with an explicit separator does. -/
def splitAtSignAux : List Char → List Char → List (List Char)
  | [], acc => [acc.reverse]
  | c :: cs, acc =>
    if c == '@' then acc.reverse :: splitAtSignAux cs []
    else splitAtSignAux cs (c :: acc)

/-- Python `str.split` on the at-sign separator. -/
def splitOnAt (cs : List Char) : List (List Char) := splitAtSignAux cs []

/-- `alt_names` of `generate-tissue-properties.py` (lines 141-145): an
empty (falsy) cell yields no aliases; otherwise the cell is stripped of
quotes and whitespace, split at every at-sign, and the stripped
nonempty segments are kept. -/
def alt_names (raw : List Char) : List (List Char) :=
  if raw = [] then []
  else ((splitOnAt (pyStrip (stripQuotes raw))).map pyStrip).filter
    (fun n => n ≠ [])

/-- One row of the main spreadsheet, restricted to the cells the script
reads (COLS, lines 91-127).  Numeric cells are `Option ℚ`, `none` being
the empty cell that `get_val` turns into Python `None`. -/
structure MainRow where
  tissue_name : List Char
  density_av : Option ℚ
  heat_capacity_av : Option ℚ
  thermal_conductivity_av : Option ℚ
  heat_transfer_rate_av : Option ℚ
  heat_generation_rate_av : Option ℚ
  cole_ef : Option ℚ
  cole_delta1 : Option ℚ
  cole_tau1 : Option ℚ
  cole_alpha1 : Option ℚ
  cole_delta2 : Option ℚ
  cole_tau2 : Option ℚ
  cole_alpha2 : Option ℚ
  cole_sig : Option ℚ
  cole_delta3 : Option ℚ
  cole_tau3 : Option ℚ
  cole_alpha3 : Option ℚ
  cole_delta4 : Option ℚ
  cole_tau4 : Option ℚ
  cole_alpha4 : Option ℚ
  alternative_names : List Char
  lf_conductivity_av : Option ℚ
  sound_speed_av : Option ℚ
  nonlinearity_av : Option ℚ
  attenuation_alpha0 : Option ℚ
  attenuation_b : Option ℚ
  t1_15T : Option ℚ
  t2_15T : Option ℚ
  t1_3T : Option ℚ
  t2_3T : Option ℚ
  water_content : Option ℚ
deriving DecidableEq

/-- One Cole-Cole dispersion term of the output record. -/
structure ColeTerm where
  delta : ℚ
  tau : ℚ
  alpha : ℚ
deriving DecidableEq

/-- The Cole-Cole group of the output record. -/
structure ColeCole where
  ef : ℚ
  terms : List ColeTerm
  sigmaIonic : ℚ
deriving DecidableEq

/-- The unit factors applied to the four tau columns (float literals
1e-12, 1e-9, 1e-6, 1e-3 as exact rationals). -/
def tauScale : Fin 4 → ℚ
  | 0 => ((10 : ℚ) ^ (12 : ℕ))⁻¹
  | 1 => ((10 : ℚ) ^ (9 : ℕ))⁻¹
  | 2 => ((10 : ℚ) ^ (6 : ℕ))⁻¹
  | 3 => ((10 : ℚ) ^ (3 : ℕ))⁻¹

/-- One term of the builder: Python evaluates
`tau * scale if tau else 0`, so an empty or zero tau cell gives 0, and
an empty alpha cell gives 0. -/
def coleTermOf (dlt : ℚ) (tau alpha : Option ℚ) (scale : ℚ) : ColeTerm :=
  { delta := dlt,
    tau := match tau with
      | some t => if t = 0 then 0 else t * scale
      | none => 0,
    alpha := alpha.getD 0 }

/-- `cole_cole` construction of `generate-tissue-properties.py`
(lines 152-190): present when the ef cell is present; one term per
present delta cell, in column order. -/
def cole_cole (r : MainRow) : Option ColeCole :=
  match r.cole_ef with
  | none => none
  | some ef =>
    let t1 := match r.cole_delta1 with
      | none => []
      | some d => [coleTermOf d r.cole_tau1 r.cole_alpha1 (tauScale 0)]
    let t2 := match r.cole_delta2 with
      | none => []
      | some d => [coleTermOf d r.cole_tau2 r.cole_alpha2 (tauScale 1)]
    let t3 := match r.cole_delta3 with
      | none => []
      | some d => [coleTermOf d r.cole_tau3 r.cole_alpha3 (tauScale 2)]
    let t4 := match r.cole_delta4 with
      | none => []
      | some d => [coleTermOf d r.cole_tau4 r.cole_alpha4 (tauScale 3)]
    some { ef := ef,
           terms := t1 ++ t2 ++ t3 ++ t4,
           sigmaIonic := r.cole_sig.getD 0 }

/-- The flattened relaxation-times group (lines 195-203); an empty dict
is falsy and becomes `None` in the record (line 232). -/
structure Relaxation where
  t1_15T : Option ℚ
  t2_15T : Option ℚ
  t1_30T : Option ℚ
  t2_30T : Option ℚ
deriving DecidableEq

/-- `relaxation_times` of the script: each present cell is copied under
its (renamed) key; all cells absent gives `None`. -/
def relaxation_times (r : MainRow) : Option Relaxation :=
  if r.t1_15T = none ∧ r.t2_15T = none ∧ r.t1_3T = none ∧ r.t2_3T = none
  then none
  else some ⟨r.t1_15T, r.t2_15T, r.t1_3T, r.t2_3T⟩

/-- The elemental-composition record (lines 66-84), passed through as a
unit; its construction is not at issue in any claim. -/
structure Elemental where
  hydrogen : Option ℚ
  carbon : Option ℚ
  nitrogen : Option ℚ
  oxygen : Option ℚ
  sodium : Option ℚ
  magnesium : Option ℚ
  silicon : Option ℚ
  phosphorus : Option ℚ
  sulfur : Option ℚ
  chlorine : Option ℚ
  argon : Option ℚ
  potassium : Option ℚ
  calcium : Option ℚ
  scandium : Option ℚ
  iron : Option ℚ
  zinc : Option ℚ
  iodine : Option ℚ
deriving DecidableEq

/-- The thermal group of the output record. -/
structure Thermal where
  density : Option ℚ
  heatCapacity : Option ℚ
  thermalConductivity : Option ℚ
  heatTransferRate : Option ℚ
  heatGenerationRate : Option ℚ
deriving DecidableEq

/-- The acoustic attenuation subgroup of the output record. -/
structure Attenuation where
  alpha0 : ℚ
  b : ℚ
deriving DecidableEq

/-- The acoustic group of the output record. -/
structure Acoustic where
  speedOfSound : Option ℚ
  nonlinearity : Option ℚ
  attenuation : Attenuation
deriving DecidableEq

/-- The dielectric group of the output record. -/
structure Dielectric where
  coleCole : Option ColeCole
  lfConductivity : Option ℚ
deriving DecidableEq

/-- The nested properties of one tissue record. -/
structure TissueProps where
  thermal : Thermal
  acoustic : Acoustic
  dielectric : Dielectric
  relaxation : Option Relaxation
  waterContent : Option ℚ
  elemental : Option Elemental
deriving DecidableEq

/-- One full output record (`tissue_data`, lines 209-236). -/
structure TissueData where
  name : List Char
  alternativeNames : List (List Char)
  properties : TissueProps
deriving DecidableEq

/-- `tissue_data` of `generate-tissue-properties.py` (lines 209-236);
`emap` is the elemental map built from the second workbook, abstracted
as a lookup function. -/
def tissue_data (emap : List Char → Option Elemental) (r : MainRow) :
    TissueData :=
  let nm := pyStrip r.tissue_name
  { name := nm,
    alternativeNames := alt_names r.alternative_names,
    properties :=
      { thermal :=
          { density := r.density_av,
            heatCapacity := r.heat_capacity_av,
            thermalConductivity := r.thermal_conductivity_av,
            heatTransferRate := r.heat_transfer_rate_av,
            heatGenerationRate := r.heat_generation_rate_av },
        acoustic :=
          { speedOfSound := r.sound_speed_av,
            nonlinearity := r.nonlinearity_av,
            attenuation :=
              { alpha0 := r.attenuation_alpha0.getD 0,
                b := r.attenuation_b.getD 1 } },
        dielectric :=
          { coleCole := cole_cole r,
            lfConductivity := r.lf_conductivity_av },
        relaxation := relaxation_times r,
        waterContent := r.water_content,
        elemental := emap nm } }

/-- The output mapping: newest binding first, so a lookup sees the most
recent write, matching Python dict overwrite semantics. -/
def lookupStore : List (List Char × TissueData) → List Char →
    Option TissueData
  | [], _ => none
  | (k, v) :: rest, key => if k = key then some v else lookupStore rest key

/-- The keys one row is stored under: primary name first, then every
alias (lines 239-243). -/
def rowKeys (r : MainRow) : List (List Char) :=
  pyStrip r.tissue_name :: alt_names r.alternative_names

/-- Processing of one row of the main loop: rows with a blank name are
skipped (lines 134-136), all others are stored under every key. -/
def processRow (emap : List Char → Option Elemental)
    (s : List (List Char × TissueData)) (r : MainRow) :
    List (List Char × TissueData) :=
  if pyStrip r.tissue_name = [] then s
  else (rowKeys r).foldl (fun acc k => (k, tissue_data emap r) :: acc) s

/-- `tissue_properties` of `generate-tissue-properties.py`: the main
loop over the spreadsheet rows (lines 133-243). -/
def tissue_properties (emap : List Char → Option Elemental)
    (rows : List MainRow) : List (List Char × TissueData) :=
  rows.foldl (processRow emap) []

/-- Background value of the MAT volume (`convert-mat-to-vtk.py`). -/
def BACKGROUND_VALUE : Nat := 50

/-- Value background voxels are remapped to. -/
def TRANSPARENT_VALUE : Nat := 0

/-- `convert_mat_to_vti` of `convert-mat-to-vtk.py`, restricted to the
voxel data path: the flattened uint16 volume has its background voxels
remapped to the transparent value (lines 38-42) and is then cast to
uint8 (line 74), which reduces every value modulo 256.  The resulting
list is the payload of the VTI DataArray (before base64 framing). -/
def convert_mat_to_vti (vol : List Nat) : List Nat :=
  let remapped := vol.map
    (fun v => if v = BACKGROUND_VALUE then TRANSPARENT_VALUE else v)
  remapped.map (fun v => v % 256)

/-- The unit-tetrahedron mesh of the spec (section 8): patterns
1065353216 and 0 are float32 1.0 and 0.0. -/
def tetraMesh : Mesh :=
  { vertices :=
      [(0, 0, 0), (1065353216, 0, 0), (0, 1065353216, 0),
       (0, 0, 1065353216)],
    faces := [(0, 1, 2), (0, 1, 3), (0, 2, 3), (1, 2, 3)],
    tissue_ids := [1, 2, 2, 3] }

/-- A mesh with a single vertex whose only face references vertex 5:
an out-of-range index. -/
def oobFaceMesh : Mesh :=
  { vertices := [(0, 0, 0)],
    faces := [(5, 0, 0)],
    tissue_ids := [7] }

/-- Header lines with the magic token, the supported format, counts and
the tissue label property, but with none of the three float coordinate
property declarations and with no face list property declaration. -/
def c5Lines : List (List Char) :=
  [strL "ply",
   strL "format binary_little_endian 1.0",
   strL "element vertex 1",
   strL "property uchar tissue_id",
   strL "element face 1",
   strL "end_header"]

/-- Body bytes matching `c5Lines`: one vertex record (three zero floats
and tissue id 7) and one triangular face record (0, 0, 0). -/
def c5Body : List Nat :=
  [0, 0, 0, 0, 0, 0, 0, 0, 0, 0, 0, 0, 7,
   3, 0, 0, 0, 0, 0, 0, 0, 0, 0, 0, 0, 0]

/-- The mesh the deviating stream of `c5Lines` decodes to. -/
def c5Mesh : Mesh :=
  { vertices := [(0, 0, 0)], faces := [(0, 0, 0)], tissue_ids := [7] }

/-- A spreadsheet row with every cell empty and blank names. -/
def defaultRow : MainRow :=
  { tissue_name := [],
    density_av := none,
    heat_capacity_av := none,
    thermal_conductivity_av := none,
    heat_transfer_rate_av := none,
    heat_generation_rate_av := none,
    cole_ef := none,
    cole_delta1 := none,
    cole_tau1 := none,
    cole_alpha1 := none,
    cole_delta2 := none,
    cole_tau2 := none,
    cole_alpha2 := none,
    cole_sig := none,
    cole_delta3 := none,
    cole_tau3 := none,
    cole_alpha3 := none,
    cole_delta4 := none,
    cole_tau4 := none,
    cole_alpha4 := none,
    alternative_names := [],
    lf_conductivity_av := none,
    sound_speed_av := none,
    nonlinearity_av := none,
    attenuation_alpha0 := none,
    attenuation_b := none,
    t1_15T := none,
    t2_15T := none,
    t1_3T := none,
    t2_3T := none,
    water_content := none }

/-- A row whose first Cole-Cole dispersion term has tau cell 2 in the
source: the builder multiplies it by 1e-12. -/
def c6Row : MainRow :=
  { defaultRow with
    tissue_name := strL "Sample",
    cole_ef := some 4,
    cole_delta1 := some 1,
    cole_tau1 := some 2,
    cole_alpha1 := some 0 }

/-- A row with all four Cole-Cole dispersion terms present (taus 1, so
each output tau is the bare unit factor). -/
def c6FullRow : MainRow :=
  { defaultRow with
    tissue_name := strL "Sample4",
    cole_ef := some 7,
    cole_delta1 := some 1,
    cole_tau1 := some 1,
    cole_alpha1 := some 5,
    cole_delta2 := some 2,
    cole_tau2 := some 1,
    cole_alpha2 := some 5,
    cole_delta3 := some 3,
    cole_tau3 := some 1,
    cole_alpha3 := some 5,
    cole_delta4 := some 4,
    cole_tau4 := some 1,
    cole_alpha4 := some 5,
    cole_sig := some 6 }

/-- The alias-expansion example row of the spec (section 8). -/
def fatRow : MainRow :=
  { defaultRow with
    tissue_name := strL "Fat",
    alternative_names := strL "Adipose@Fatty Tissue",
    density_av := some 911 }

/-- A row appearing after the Fat row whose primary name equals the
Fat row's alias Adipose, with a different density. -/
def overwriteRow : MainRow :=
  { defaultRow with
    tissue_name := strL "Adipose",
    density_av := some 500 }

/-- The trivial elemental map used for concrete checks. -/
def noElem : List Char → Option Elemental := fun _ => none

/-! ### Helper lemmas: decimal rendering and parsing -/

theorem digitVal_digitChar10 (d : Nat) (hd : d < 10) :
    digitVal? (digitChar10 d) = some d := by
  interval_cases d <;> decide

theorem parseNatAux_map (L : List Nat) (acc : Nat) (h : ∀ d ∈ L, d < 10) :
    parseNatAux (L.map digitChar10) acc =
      some (L.foldl (fun a d => 10 * a + d) acc) := by
  induction L generalizing acc with
  | nil => rfl
  | cons d L ih =>
    have hd : d < 10 := h d (List.mem_cons_self d L)
    simp only [List.map_cons, parseNatAux, digitVal_digitChar10 d hd,
      List.foldl_cons]
    exact ih (10 * acc + d) (fun x hx => h x (List.mem_cons_of_mem d hx))

theorem foldl_reverse_ofDigits (L : List Nat) (acc : Nat) :
    L.reverse.foldl (fun a d => 10 * a + d) acc =
      acc * 10 ^ L.length + Nat.ofDigits 10 L := by
  induction L generalizing acc with
  | nil => simp
  | cons d L ih =>
    simp only [List.reverse_cons, List.foldl_append, List.foldl_cons,
      List.foldl_nil, ih, Nat.ofDigits_cons, List.length_cons]
    ring

theorem pyParseNat_natChars (n : Nat) : pyParseNat (natChars n) = some n := by
  by_cases h0 : n = 0
  · subst h0; decide
  · have hne : Nat.digits 10 n ≠ [] := Nat.digits_ne_nil_iff_ne_zero.mpr h0
    have hlt : ∀ d ∈ (Nat.digits 10 n).reverse, d < 10 := by
      intro d hd
      exact Nat.digits_lt_base (by norm_num) (List.mem_reverse.mp hd)
    have hmap : natChars n = ((Nat.digits 10 n).reverse).map digitChar10 := by
      simp [natChars, h0]
    rw [hmap, pyParseNat]
    have hnil : ((Nat.digits 10 n).reverse).map digitChar10 ≠ [] := by
      simp [hne]
    rw [if_neg (by simpa [List.isEmpty_iff] using hnil)]
    rw [parseNatAux_map _ 0 hlt, foldl_reverse_ofDigits]
    simp [Nat.ofDigits_digits]

theorem natChars_ne_nil (n : Nat) : natChars n ≠ [] := by
  by_cases h0 : n = 0
  · subst h0; decide
  · simp [natChars, h0, Nat.digits_ne_nil_iff_ne_zero.mpr h0]

theorem natChars_nonspace (n : Nat) :
    ∀ c ∈ natChars n, pyIsSpace c = false := by
  intro c hc
  by_cases h0 : n = 0
  · subst h0; simp [natChars] at hc; subst hc; decide
  · simp only [natChars, h0, if_false] at hc
    obtain ⟨d, hd, rfl⟩ := List.mem_map.mp hc
    have : d < 10 :=
      Nat.digits_lt_base (by norm_num) (List.mem_reverse.mp hd)
    interval_cases d <;> decide

/-! ### Helper lemmas: `pyWords` on the element lines -/

theorem wordsAux_nonspace (ds acc : List Char)
    (h : ∀ c ∈ ds, pyIsSpace c = false) (hne : ds ≠ [] ∨ acc ≠ []) :
    wordsAux ds acc = [acc.reverse ++ ds] := by
  induction ds generalizing acc with
  | nil =>
    have : acc ≠ [] := hne.resolve_left (fun h => h rfl)
    simp [wordsAux, List.isEmpty_iff, this]
  | cons c cs ih =>
    have hc : pyIsSpace c = false := h c (List.mem_cons_self c cs)
    simp only [wordsAux, hc, Bool.false_eq_true, if_false]
    rw [ih (c :: acc) (fun x hx => h x (List.mem_cons_of_mem c hx))
      (Or.inr (by simp))]
    simp

theorem pyWords_elem_vertex (n : Nat) :
    pyWords (strL "element vertex " ++ natChars n) =
      [strL "element", strL "vertex", natChars n] := by
  show wordsAux (strL "element vertex " ++ natChars n) [] = _
  show strL "element" :: strL "vertex" :: wordsAux (natChars n) [] = _
  rw [wordsAux_nonspace (natChars n) [] (natChars_nonspace n)
    (Or.inl (natChars_ne_nil n))]
  rfl

theorem pyWords_elem_face (n : Nat) :
    pyWords (strL "element face " ++ natChars n) =
      [strL "element", strL "face", natChars n] := by
  show wordsAux (strL "element face " ++ natChars n) [] = _
  show strL "element" :: strL "face" :: wordsAux (natChars n) [] = _
  rw [wordsAux_nonspace (natChars n) [] (natChars_nonspace n)
    (Or.inl (natChars_ne_nil n))]
  rfl

/-! ### Helper lemmas: header lines as seen by the reader loop -/

theorem headerStep_format (st : PlyHeader) :
    headerStep (strL "format binary_little_endian 1.0") st =
      .next { st with format_type := some bleTok } := rfl

theorem headerStep_comment (st : PlyHeader) :
    headerStep
      (strL "comment Downsampled human head model with tissue IDs") st =
      .next st := rfl

theorem headerStep_px (st : PlyHeader) :
    headerStep (strL "property float x") st = .next st := rfl

theorem headerStep_py (st : PlyHeader) :
    headerStep (strL "property float y") st = .next st := rfl

theorem headerStep_pz (st : PlyHeader) :
    headerStep (strL "property float z") st = .next st := rfl

theorem headerStep_ptid (st : PlyHeader) :
    headerStep (strL "property uchar tissue_id") st =
      .next { st with has_tissue_id := true } := rfl

theorem headerStep_plist (st : PlyHeader) :
    headerStep (strL "property list uchar int vertex_indices") st =
      .next st := rfl

theorem headerStep_eh (st : PlyHeader) :
    headerStep (strL "end_header") st = .stop := rfl

theorem headerStep_elem_vertex (n : Nat) (st : PlyHeader) :
    headerStep (strL "element vertex " ++ natChars n) st =
      .next { st with vertex_count := n } := by
  have h1 : ((strL "element vertex " ++ natChars n) ==
      strL "end_header") = false := rfl
  have h2 : (strL "format").isPrefixOf
      (strL "element vertex " ++ natChars n) = false := rfl
  have h3 : (strL "element vertex").isPrefixOf
      (strL "element vertex " ++ natChars n) = true := rfl
  simp [headerStep, h1, h2, h3, pyWords_elem_vertex, pyParseNat_natChars]

theorem headerStep_elem_face (n : Nat) (st : PlyHeader) :
    headerStep (strL "element face " ++ natChars n) st =
      .next { st with face_count := n } := by
  have h1 : ((strL "element face " ++ natChars n) ==
      strL "end_header") = false := rfl
  have h2 : (strL "format").isPrefixOf
      (strL "element face " ++ natChars n) = false := rfl
  have h3 : (strL "element vertex").isPrefixOf
      (strL "element face " ++ natChars n) = false := rfl
  have h4 : (strL "element face").isPrefixOf
      (strL "element face " ++ natChars n) = true := rfl
  simp [headerStep, h1, h2, h3, h4, pyWords_elem_face, pyParseNat_natChars]

theorem parseHeaderLoop_enc (nv nf : Nat) :
    parseHeaderLoop
      [strL "format binary_little_endian 1.0",
       strL "comment Downsampled human head model with tissue IDs",
       strL "element vertex " ++ natChars nv,
       strL "property float x", strL "property float y",
       strL "property float z", strL "property uchar tissue_id",
       strL "element face " ++ natChars nf,
       strL "property list uchar int vertex_indices",
       strL "end_header"] ⟨none, 0, 0, false⟩ =
      .ok ⟨some bleTok, nv, nf, true⟩ := by
  simp only [parseHeaderLoop, headerStep_format, headerStep_comment,
    headerStep_elem_vertex, headerStep_px, headerStep_py, headerStep_pz,
    headerStep_ptid, headerStep_elem_face, headerStep_plist, headerStep_eh]

/-! ### Helper lemmas: body round trip -/

theorem le32_eval (w : Nat) (hw : w < 4294967296) :
    w % 256 + 256 * (w / 256 % 256) + 65536 * (w / 65536 % 256) +
      16777216 * (w / 16777216 % 256) = w := by
  omega

theorem rdWord32_le32 (w : Nat) (hw : w < 4294967296) (R : List Nat) :
    rdWord32 (le32 w ++ R) = some (w, R) := by
  simp [le32, rdWord32, le32_eval w hw]

theorem readVertices_enc (ps : List ((Nat × Nat × Nat) × Nat))
    (rest : List Nat)
    (hc : ∀ p ∈ ps, p.1.1 < 4294967296 ∧ p.1.2.1 < 4294967296 ∧
      p.1.2.2 < 4294967296)
    (ht : ∀ p ∈ ps, p.2 < 256) :
    readVertices ps.length (encVertexBytes ps ++ rest) =
      .ok (ps.map Prod.fst, ps.map Prod.snd, rest) := by
  induction ps with
  | nil => rfl
  | cons p ps ih =>
    obtain ⟨⟨x, y, z⟩, t⟩ := p
    have hxyz := hc _ (List.mem_cons_self _ _)
    have htt := ht _ (List.mem_cons_self _ _)
    dsimp only at hxyz htt
    obtain ⟨hx, hy, hz⟩ := hxyz
    have hmod : t % 256 = t := Nat.mod_eq_of_lt htt
    have ihr := ih (fun q hq => hc q (List.mem_cons_of_mem _ hq))
      (fun q hq => ht q (List.mem_cons_of_mem _ hq))
    simp only [List.length_cons, encVertexBytes, List.append_assoc,
      List.cons_append, readVertices, rdWord32_le32 x hx, rdWord32_le32 y hy,
      rdWord32_le32 z hz, rdByte, ihr, hmod, List.map_cons]

theorem readFaces_enc (fs : List (Int × Int × Int)) (rest : List Nat)
    (h : ∀ f ∈ fs, (0 ≤ f.1 ∧ f.1 < 2147483648) ∧
      (0 ≤ f.2.1 ∧ f.2.1 < 2147483648) ∧
      (0 ≤ f.2.2 ∧ f.2.2 < 2147483648)) :
    ∃ bs, encFaceBytes fs = .ok bs ∧
      readFaces fs.length (bs ++ rest) = .ok (fs, rest) := by
  induction fs with
  | nil => exact ⟨[], rfl, rfl⟩
  | cons f fs ih =>
    obtain ⟨a, b, c⟩ := f
    have habc := h _ (List.mem_cons_self _ _)
    dsimp only at habc
    obtain ⟨⟨ha0, ha1⟩, ⟨hb0, hb1⟩, ⟨hc0, hc1⟩⟩ := habc
    obtain ⟨bs, hbs, hrd⟩ := ih (fun q hq => h q (List.mem_cons_of_mem _ hq))
    have hta : a.toNat < 4294967296 := by omega
    have htb : b.toNat < 4294967296 := by omega
    have htc : c.toNat < 4294967296 := by omega
    have hva : toInt32 a.toNat = a := by
      simp only [toInt32, Nat.mod_eq_of_lt hta,
        if_pos (show a.toNat < 2147483648 by omega)]
      omega
    have hvb : toInt32 b.toNat = b := by
      simp only [toInt32, Nat.mod_eq_of_lt htb,
        if_pos (show b.toNat < 2147483648 by omega)]
      omega
    have hvc : toInt32 c.toNat = c := by
      simp only [toInt32, Nat.mod_eq_of_lt htc,
        if_pos (show c.toNat < 2147483648 by omega)]
      omega
    refine ⟨3 :: (le32 a.toNat ++ le32 b.toNat ++ le32 c.toNat ++ bs),
      ?_, ?_⟩
    · simp only [encFaceBytes, packIdx,
        if_pos (And.intro ha0 (show a < 4294967296 by omega)),
        if_pos (And.intro hb0 (show b < 4294967296 by omega)),
        if_pos (And.intro hc0 (show c < 4294967296 by omega)), hbs]
    · simp only [List.length_cons, List.cons_append, List.append_assoc,
        readFaces, rdByte, if_pos rfl, rdWord32_le32 _ hta,
        rdWord32_le32 _ htb, rdWord32_le32 _ htc, hrd, hva, hvb, hvc,
        if_true]

/-! ### Claim C1: codec round trip -/

/-- C1: for every valid mesh (at least one vertex, at least one
triangular face, label count equal to vertex count, all face indices in
range), decoding the stream produced by encoding yields the mesh back
exactly: float32 coordinate patterns bit-exact, indices and labels
exact. -/
theorem c1_codec_round_trip (m : Mesh) (h : validMesh m) :
    decodeEncoded m = .ok m := by
  obtain ⟨hv, hf, hlen, hcoord, htis, hidx⟩ := h
  have hidx' : ∀ f ∈ m.faces, (0 ≤ f.1 ∧ f.1 < 2147483648) ∧
      (0 ≤ f.2.1 ∧ f.2.1 < 2147483648) ∧
      (0 ≤ f.2.2 ∧ f.2.2 < 2147483648) := by
    intro f hfm
    obtain ⟨⟨a0, _, a2⟩, ⟨b0, _, b2⟩, ⟨c0, _, c2⟩⟩ := hidx f hfm
    exact ⟨⟨a0, a2⟩, ⟨b0, b2⟩, ⟨c0, c2⟩⟩
  obtain ⟨fb, hfb, hread⟩ := readFaces_enc m.faces [] hidx'
  have hread' : readFaces m.faces.length fb = .ok (m.faces, []) := by
    simpa using hread
  have hnlt : ¬ m.tissue_ids.length < m.vertices.length := by omega
  have hcz : ∀ p ∈ m.vertices.zip m.tissue_ids,
      p.1.1 < 4294967296 ∧ p.1.2.1 < 4294967296 ∧ p.1.2.2 < 4294967296 :=
    fun p hp => hcoord p.1 (List.of_mem_zip hp).1
  have htz : ∀ p ∈ m.vertices.zip m.tissue_ids, p.2 < 256 :=
    fun p hp => htis p.2 (List.of_mem_zip hp).2
  have hrv := readVertices_enc (m.vertices.zip m.tissue_ids) fb hcz htz
  rw [show (m.vertices.zip m.tissue_ids).length = m.vertices.length by
        simp [hlen],
      List.map_fst_zip _ _ (le_of_eq hlen.symm),
      List.map_snd_zip _ _ (le_of_eq hlen)] at hrv
  simp only [decodeEncoded, write_ply_with_tissue_id, if_neg hnlt, hfb,
    headerLines, read_ply_with_tissue_id, parseHeaderLoop_enc,
    eq_self_iff_true, if_true, hrv, hread']

/-- Witness for C1: the unit tetrahedron of the spec is a valid mesh
and round trips. -/
theorem c1_codec_round_trip_witness :
    validMesh tetraMesh ∧ decodeEncoded tetraMesh = .ok tetraMesh :=
  ⟨by decide, c1_codec_round_trip tetraMesh (by decide)⟩

/-! ### Claim C3: decode rejection -/

theorem headerStep_has (l : List Char) (st st2 : PlyHeader)
    (h : headerStep l st = .next st2) (h2 : st2.has_tissue_id = true) :
    st.has_tissue_id = true ∨ l = strL "property uchar tissue_id" := by
  simp only [headerStep] at h
  repeat' split at h
  all_goals first
    | exact HeaderStep.noConfusion h
    | (injection h with h'; subst h';
       first
       | exact Or.inl h2
       | exact Or.inr (by simp_all))

theorem headerStep_fmt (l : List Char) (st st2 : PlyHeader) (t : List Char)
    (h : headerStep l st = .next st2) (h2 : st2.format_type = some t) :
    st.format_type = some t ∨
      ((strL "format").isPrefixOf l = true ∧ (pyWords l)[1]? = some t) := by
  simp only [headerStep] at h
  repeat' split at h
  all_goals first
    | exact HeaderStep.noConfusion h
    | (injection h with h'; subst h';
       first
       | exact Or.inl h2
       | (refine Or.inr ⟨by assumption, ?_⟩; simp_all))

theorem parse_hasTid (lines : List (List Char)) :
    ∀ st st', parseHeaderLoop lines st = .ok st' →
      st'.has_tissue_id = true →
      st.has_tissue_id = true ∨ strL "property uchar tissue_id" ∈ lines := by
  induction lines with
  | nil =>
    intro st st' h
    exact absurd h (by simp [parseHeaderLoop])
  | cons l rest ih =>
    intro st st' h h2
    simp only [parseHeaderLoop] at h
    cases hs : headerStep l st with
    | stop =>
      rw [hs] at h
      have h' : Except.ok (ε := String) st = .ok st' := h
      injection h' with he
      subst he
      exact Or.inl h2
    | fail msg =>
      rw [hs] at h
      have h' : Except.error (α := PlyHeader) msg = .ok st' := h
      exact Except.noConfusion h'
    | next st2 =>
      rw [hs] at h
      have h' : parseHeaderLoop rest st2 = .ok st' := h
      rcases ih st2 st' h' h2 with h3 | h3
      · rcases headerStep_has l st st2 hs h3 with h4 | h4
        · exact Or.inl h4
        · exact Or.inr (by simp [h4])
      · exact Or.inr (List.mem_cons_of_mem _ h3)

theorem parse_fmt (lines : List (List Char)) (t : List Char) :
    ∀ st st', parseHeaderLoop lines st = .ok st' →
      st'.format_type = some t →
      st.format_type = some t ∨
        ∃ l ∈ lines,
          (strL "format").isPrefixOf l = true ∧ (pyWords l)[1]? = some t := by
  induction lines with
  | nil =>
    intro st st' h
    exact absurd h (by simp [parseHeaderLoop])
  | cons l rest ih =>
    intro st st' h h2
    simp only [parseHeaderLoop] at h
    cases hs : headerStep l st with
    | stop =>
      rw [hs] at h
      have h' : Except.ok (ε := String) st = .ok st' := h
      injection h' with he
      subst he
      exact Or.inl h2
    | fail msg =>
      rw [hs] at h
      have h' : Except.error (α := PlyHeader) msg = .ok st' := h
      exact Except.noConfusion h'
    | next st2 =>
      rw [hs] at h
      have h' : parseHeaderLoop rest st2 = .ok st' := h
      rcases ih st2 st' h' h2 with h3 | h3
      · rcases headerStep_fmt l st st2 t hs h3 with h4 | h4
        · exact Or.inl h4
        · exact Or.inr ⟨l, List.mem_cons_self _ _, h4⟩
      · obtain ⟨l2, hl2, hp⟩ := h3
        exact Or.inr ⟨l2, List.mem_cons_of_mem _ hl2, hp⟩

/-- C3: decoding fails, returning no mesh, (i) whenever no header line
is the per-vertex tissue_id property declaration, (ii) whenever no
header line declares the supported little-endian binary format token,
and (iii) at any face record whose arity byte is not exactly 3, with
the FormatError message of the source. -/
theorem c3_decode_rejection :
    (∀ lines body (mOut : Mesh),
      (∀ l ∈ lines, l ≠ strL "property uchar tissue_id") →
      read_ply_with_tissue_id lines body ≠ .ok mOut) ∧
    (∀ lines body (mOut : Mesh),
      (∀ l ∈ lines, ¬ ((strL "format").isPrefixOf l = true ∧
        (pyWords l)[1]? = some bleTok)) →
      read_ply_with_tissue_id lines body ≠ .ok mOut) ∧
    (∀ n (b : Nat) rest, b ≠ 3 →
      readFaces (n + 1) (b :: rest) =
        .error "Only triangular faces supported") := by
  refine ⟨?_, ?_, ?_⟩
  · intro lines body mOut hno hok
    cases lines with
    | nil => simp [read_ply_with_tissue_id] at hok
    | cons l0 rest =>
      simp only [read_ply_with_tissue_id] at hok
      by_cases hply : l0 = strL "ply"
      · rw [if_pos hply] at hok
        cases hp : parseHeaderLoop rest ⟨none, 0, 0, false⟩ with
        | error e =>
          simp [hp] at hok
        | ok st =>
          simp only [hp] at hok
          by_cases htid : st.has_tissue_id = true
          · rcases parse_hasTid rest _ st hp htid with hbad | hmem
            · exact Bool.noConfusion hbad
            · exact hno _ (List.mem_cons_of_mem _ hmem) rfl
          · rw [if_neg htid] at hok
            exact Except.noConfusion hok
      · rw [if_neg hply] at hok
        exact Except.noConfusion hok
  · intro lines body mOut hno hok
    cases lines with
    | nil => simp [read_ply_with_tissue_id] at hok
    | cons l0 rest =>
      simp only [read_ply_with_tissue_id] at hok
      by_cases hply : l0 = strL "ply"
      · rw [if_pos hply] at hok
        cases hp : parseHeaderLoop rest ⟨none, 0, 0, false⟩ with
        | error e =>
          simp [hp] at hok
        | ok st =>
          simp only [hp] at hok
          by_cases htid : st.has_tissue_id = true
          · rw [if_pos htid] at hok
            by_cases hfmt : st.format_type = some bleTok
            · rcases parse_fmt rest bleTok _ st hp hfmt with hbad | hmem
              · exact Option.noConfusion hbad
              · obtain ⟨l2, hl2, hdecl⟩ := hmem
                exact hno l2 (List.mem_cons_of_mem _ hl2) hdecl
            · rw [if_neg hfmt] at hok
              exact Except.noConfusion hok
          · rw [if_neg htid] at hok
            exact Except.noConfusion hok
      · rw [if_neg hply] at hok
        exact Except.noConfusion hok
  · intro n b rest hb
    simp only [readFaces, rdByte, if_neg hb]

/-- Witness for C3: a header with no tissue_id line is rejected, a
header declaring the ascii format is rejected, and an arity-4 face
record is rejected. -/
theorem c3_decode_rejection_witness :
    read_ply_with_tissue_id [strL "ply", strL "end_header"] [] ≠
      .ok c5Mesh ∧
    read_ply_with_tissue_id [strL "ply", strL "format ascii 1.0",
      strL "property uchar tissue_id", strL "end_header"] [] ≠
      .ok c5Mesh ∧
    readFaces 1 [4] = .error "Only triangular faces supported" :=
  ⟨c3_decode_rejection.1 _ _ c5Mesh (by decide),
   c3_decode_rejection.2.1 _ _ c5Mesh (by decide),
   c3_decode_rejection.2.2 0 4 [] (by decide)⟩

/-! ### Claim C4: encoding and out-of-range face indices -/

/-- C4 counterexample: the mesh with one vertex and the face (5, 0, 0)
references vertex 5, which is out of range, yet encoding succeeds and
writes the header, the vertex record and the face record with the
out-of-range index 5 verbatim; no FormatError is raised. -/
theorem c4_encode_counterexample :
    write_ply_with_tissue_id oobFaceMesh =
      .ok (headerLines 1 1,
        [0, 0, 0, 0, 0, 0, 0, 0, 0, 0, 0, 0, 7,
         3, 5, 0, 0, 0, 0, 0, 0, 0, 0, 0, 0, 0]) := rfl

theorem encFaceBytes_total (fs : List (Int × Int × Int))
    (h : ∀ f ∈ fs, (0 ≤ f.1 ∧ f.1 < 4294967296) ∧
      (0 ≤ f.2.1 ∧ f.2.1 < 4294967296) ∧
      (0 ≤ f.2.2 ∧ f.2.2 < 4294967296)) :
    ∃ bs, encFaceBytes fs = .ok bs := by
  induction fs with
  | nil => exact ⟨[], rfl⟩
  | cons f fs ih =>
    obtain ⟨a, b, c⟩ := f
    have habc := h _ (List.mem_cons_self _ _)
    dsimp only at habc
    obtain ⟨⟨ha0, ha1⟩, ⟨hb0, hb1⟩, hc0, hc1⟩ := habc
    obtain ⟨bs, hbs⟩ := ih (fun q hq => h q (List.mem_cons_of_mem _ hq))
    refine ⟨3 :: (le32 a.toNat ++ le32 b.toNat ++ le32 c.toNat ++ bs), ?_⟩
    simp only [encFaceBytes, packIdx, if_pos (And.intro ha0 ha1),
      if_pos (And.intro hb0 hb1), if_pos (And.intro hc0 hc1), hbs]

/-- C4 amended: `write_ply_with_tissue_id` performs no bounds check of
face indices against the vertex count.  Encoding succeeds for every
mesh whose label list covers its vertices and whose face entries merely
fit the packed uint32 range, out-of-range vertex references included;
only an entry outside [0, 2^32) (for int32 data, a negative entry)
aborts the write, via `struct.pack`, not via a FormatError check. -/
theorem c4_encode_no_check (m : Mesh)
    (hlen : m.vertices.length ≤ m.tissue_ids.length)
    (hpack : ∀ f ∈ m.faces, (0 ≤ f.1 ∧ f.1 < 4294967296) ∧
      (0 ≤ f.2.1 ∧ f.2.1 < 4294967296) ∧
      (0 ≤ f.2.2 ∧ f.2.2 < 4294967296)) :
    isOkE (write_ply_with_tissue_id m) = true := by
  obtain ⟨bs, hbs⟩ := encFaceBytes_total m.faces hpack
  simp only [write_ply_with_tissue_id,
    if_neg (show ¬ m.tissue_ids.length < m.vertices.length by omega),
    hbs, isOkE]

/-- Witness for C4 amended: the out-of-range mesh encodes without an
error. -/
theorem c4_encode_no_check_witness :
    isOkE (write_ply_with_tissue_id oobFaceMesh) = true :=
  c4_encode_no_check oobFaceMesh (by decide) (by decide)

/-! ### Claim C5: header leniency -/

/-- C5 counterexample: a header with no `property float x`, no
`property float y`, no `property float z` and no face list property
declaration is accepted, and decoding returns a mesh. -/
theorem c5_header_accepted_counterexample :
    read_ply_with_tissue_id c5Lines c5Body = .ok c5Mesh := rfl

/-- C5 amended: the reader inspects only the end sentinel, the format
line, the two element count lines and the exact tissue_id property
line; every other header line, including absent or present coordinate
property declarations, is skipped without effect, so deviating headers
are not rejected. -/
theorem c5_header_leniency (j : List Char) (rest : List (List Char))
    (st : PlyHeader)
    (h1 : (j == strL "end_header") = false)
    (h2 : (strL "format").isPrefixOf j = false)
    (h3 : (strL "element vertex").isPrefixOf j = false)
    (h4 : (strL "element face").isPrefixOf j = false)
    (h5 : (j == strL "property uchar tissue_id") = false) :
    parseHeaderLoop (j :: rest) st = parseHeaderLoop rest st := by
  simp [parseHeaderLoop, headerStep, h1, h2, h3, h4, h5]

/-- Witness for C5 amended: an arbitrary junk line is skipped by the
header loop. -/
theorem c5_header_leniency_witness :
    parseHeaderLoop [strL "hello world", strL "end_header"]
        ⟨none, 0, 0, false⟩ =
      parseHeaderLoop [strL "end_header"] ⟨none, 0, 0, false⟩ :=
  c5_header_leniency (strL "hello world") [strL "end_header"]
    ⟨none, 0, 0, false⟩ (by decide) (by decide) (by decide) (by decide)
    (by decide)

/-! ### Claim C2: downsampling cannot invent labels -/

theorem nnAux_cons_none (q p : Nat × Nat × Nat) (l : List (Nat × Nat × Nat))
    (i bi : Nat) (bd : Option ℤ) (hd : distOpt p q = none) :
    nnAux q (p :: l) i (bi, bd) = nnAux q l (i + 1) (bi, bd) := by
  cases bd <;> simp [nnAux, hd]

theorem nnAux_cons_some_none (q p : Nat × Nat × Nat)
    (l : List (Nat × Nat × Nat)) (i bi : Nat) (d : ℤ)
    (hd : distOpt p q = some d) :
    nnAux q (p :: l) i (bi, none) = nnAux q l (i + 1) (i, some d) := by
  simp [nnAux, hd]

theorem nnAux_cons_lt (q p : Nat × Nat × Nat) (l : List (Nat × Nat × Nat))
    (i bi : Nat) (d b : ℤ) (hd : distOpt p q = some d) (hlt : d < b) :
    nnAux q (p :: l) i (bi, some b) = nnAux q l (i + 1) (i, some d) := by
  simp [nnAux, hd, hlt]

theorem nnAux_cons_ge (q p : Nat × Nat × Nat) (l : List (Nat × Nat × Nat))
    (i bi : Nat) (d b : ℤ) (hd : distOpt p q = some d) (hlt : ¬ d < b) :
    nnAux q (p :: l) i (bi, some b) = nnAux q l (i + 1) (bi, some b) := by
  simp [nnAux, hd, hlt]

theorem nnAux_idx (q : Nat × Nat × Nat) (l : List (Nat × Nat × Nat)) :
    ∀ i bi bd, (nnAux q l i (bi, bd)).1 = bi ∨
      (nnAux q l i (bi, bd)).1 < i + l.length := by
  induction l with
  | nil => intro i bi bd; exact Or.inl rfl
  | cons p l ih =>
    intro i bi bd
    cases hd : distOpt p q with
    | none =>
      rw [nnAux_cons_none q p l i bi bd hd]
      rcases ih (i + 1) bi bd with h | h
      · exact Or.inl h
      · exact Or.inr (by simp only [List.length_cons]; omega)
    | some d =>
      cases bd with
      | none =>
        rw [nnAux_cons_some_none q p l i bi d hd]
        rcases ih (i + 1) i (some d) with h | h <;>
          exact Or.inr (by simp only [List.length_cons]; omega)
      | some b =>
        by_cases hlt : d < b
        · rw [nnAux_cons_lt q p l i bi d b hd hlt]
          rcases ih (i + 1) i (some d) with h | h <;>
            exact Or.inr (by simp only [List.length_cons]; omega)
        · rw [nnAux_cons_ge q p l i bi d b hd hlt]
          rcases ih (i + 1) bi (some b) with h | h
          · exact Or.inl h
          · exact Or.inr (by simp only [List.length_cons]; omega)

theorem nearestIdx_lt (pts : List (Nat × Nat × Nat)) (q : Nat × Nat × Nat)
    (h : pts ≠ []) : nearestIdx pts q < pts.length := by
  unfold nearestIdx
  rcases nnAux_idx q pts 0 0 none with h1 | h1
  · rw [h1]
    cases pts with
    | nil => exact absurd rfl h
    | cons _ _ => simp
  · simpa using h1

/-- C2: for every mesh with at least one vertex and one label per
vertex, every factor, and whatever vertex set the external simplifier
returns, each tissue label of the downsampled mesh is a label of the
input mesh: nearest-neighbor assignment only selects labels from the
original label sequence. -/
theorem c2_label_subset (m : Mesh) (factor : Nat) (_hfac : 1 ≤ factor)
    (simplifier : Nat → List (Nat × Nat × Nat) × List (Int × Int × Int))
    (hv : m.vertices ≠ [])
    (hlen : m.tissue_ids.length = m.vertices.length) :
    ∀ t ∈ (downsample_ply m factor simplifier).tissue_ids,
      t ∈ m.tissue_ids := by
  intro t ht
  simp only [downsample_ply, transferLabels, List.mem_map] at ht
  obtain ⟨q, hq, rfl⟩ := ht
  have hidx : nearestIdx m.vertices q < m.tissue_ids.length := by
    rw [hlen]
    exact nearestIdx_lt m.vertices q hv
  rw [List.getD_eq_getElem _ _ hidx]
  exact List.getElem_mem _

set_option maxRecDepth 4000 in
/-- Witness for C2: downsampling the tetrahedron with a toy simplifier
output assigns label 1 to the new vertex at the origin, and 1 is a
label of the tetrahedron. -/
theorem c2_label_subset_witness :
    (1 : Nat) ∈ tetraMesh.tissue_ids :=
  c2_label_subset tetraMesh 2 (by decide)
    (fun _ => ([(0, 0, 0), (1065353216, 0, 0)], [(0, 1, 1)]))
    (by decide) (by decide) 1 (by decide)

/-! ### Claim C9: zero-distance label preservation -/

theorem nnAux_best_mono (q : Nat × Nat × Nat) (l : List (Nat × Nat × Nat)) :
    ∀ i bi b, ∃ d2, (nnAux q l i (bi, some b)).2 = some d2 ∧ d2 ≤ b := by
  induction l with
  | nil => intro i bi b; exact ⟨b, rfl, le_refl b⟩
  | cons p l ih =>
    intro i bi b
    cases hd : distOpt p q with
    | none =>
      rw [nnAux_cons_none q p l i bi (some b) hd]
      exact ih (i + 1) bi b
    | some d =>
      by_cases hlt : d < b
      · rw [nnAux_cons_lt q p l i bi d b hd hlt]
        obtain ⟨d2, h2, hle⟩ := ih (i + 1) i d
        exact ⟨d2, h2, hle.trans (le_of_lt hlt)⟩
      · rw [nnAux_cons_ge q p l i bi d b hd hlt]
        exact ih (i + 1) bi b

theorem nnAux_best_le (q : Nat × Nat × Nat) (l : List (Nat × Nat × Nat)) :
    ∀ i bi bd p d, p ∈ l → distOpt p q = some d →
      ∃ d2, (nnAux q l i (bi, bd)).2 = some d2 ∧ d2 ≤ d := by
  induction l with
  | nil => intro i bi bd p d hp _; exact absurd hp (List.not_mem_nil p)
  | cons p0 l ih =>
    intro i bi bd p d hp hd
    rcases List.mem_cons.mp hp with rfl | hmem
    · cases bd with
      | none =>
        rw [nnAux_cons_some_none q p l i bi d hd]
        exact nnAux_best_mono q l (i + 1) i d
      | some b =>
        by_cases hlt : d < b
        · rw [nnAux_cons_lt q p l i bi d b hd hlt]
          exact nnAux_best_mono q l (i + 1) i d
        · rw [nnAux_cons_ge q p l i bi d b hd hlt]
          obtain ⟨d2, h2, hle⟩ := nnAux_best_mono q l (i + 1) bi b
          exact ⟨d2, h2, hle.trans (not_lt.mp hlt)⟩
    · cases hd0 : distOpt p0 q with
      | none =>
        rw [nnAux_cons_none q p0 l i bi bd hd0]
        exact ih (i + 1) bi bd p d hmem hd
      | some d0 =>
        cases bd with
        | none =>
          rw [nnAux_cons_some_none q p0 l i bi d0 hd0]
          exact ih (i + 1) i (some d0) p d hmem hd
        | some b =>
          by_cases hlt : d0 < b
          · rw [nnAux_cons_lt q p0 l i bi d0 b hd0 hlt]
            exact ih (i + 1) i (some d0) p d hmem hd
          · rw [nnAux_cons_ge q p0 l i bi d0 b hd0 hlt]
            exact ih (i + 1) bi (some b) p d hmem hd

theorem nnAux_achieves (q : Nat × Nat × Nat) (A : Nat → ℤ → Prop)
    (l : List (Nat × Nat × Nat)) :
    ∀ i bi bd,
      (∀ b, bd = some b → A bi b) →
      (∀ k (hk : k < l.length) dk,
        distOpt (l.get ⟨k, hk⟩) q = some dk → A (i + k) dk) →
      ∀ b2, (nnAux q l i (bi, bd)).2 = some b2 →
        A ((nnAux q l i (bi, bd)).1) b2 := by
  induction l with
  | nil => intro i bi bd hbase _ b2 h2; exact hbase b2 h2
  | cons p l ih =>
    intro i bi bd hbase hcand b2
    have hp0 : ∀ dk, distOpt p q = some dk → A i dk := by
      intro dk hdk
      exact hcand 0 (Nat.succ_pos _) dk hdk
    have hcand' : ∀ k (hk : k < l.length) dk,
        distOpt (l.get ⟨k, hk⟩) q = some dk → A (i + 1 + k) dk := by
      intro k hk dk hdk
      rw [show i + 1 + k = i + (k + 1) by omega]
      exact hcand (k + 1) (Nat.succ_lt_succ hk) dk hdk
    cases hd : distOpt p q with
    | none =>
      rw [nnAux_cons_none q p l i bi bd hd]
      exact ih (i + 1) bi bd hbase hcand' b2
    | some d =>
      cases bd with
      | none =>
        rw [nnAux_cons_some_none q p l i bi d hd]
        exact ih (i + 1) i (some d)
          (fun b hb => by injection hb with hb2; exact hb2 ▸ hp0 d hd)
          hcand' b2
      | some b =>
        by_cases hlt : d < b
        · rw [nnAux_cons_lt q p l i bi d b hd hlt]
          exact ih (i + 1) i (some d)
            (fun b3 hb => by injection hb with hb2; exact hb2 ▸ hp0 d hd)
            hcand' b2
        · rw [nnAux_cons_ge q p l i bi d b hd hlt]
          exact ih (i + 1) bi (some b) hbase hcand' b2

theorem sqDistZ_nonneg (a b : ℤ × ℤ × ℤ) : 0 ≤ sqDistZ a b := by
  unfold sqDistZ
  positivity

theorem sqDistZ_eq_zero_iff (a b : ℤ × ℤ × ℤ) : sqDistZ a b = 0 ↔ a = b := by
  obtain ⟨a1, a2, a3⟩ := a
  obtain ⟨b1, b2, b3⟩ := b
  unfold sqDistZ
  constructor
  · intro h
    have s1 : (0 : ℤ) ≤ (a1 - b1) ^ 2 := sq_nonneg _
    have s2 : (0 : ℤ) ≤ (a2 - b2) ^ 2 := sq_nonneg _
    have s3 : (0 : ℤ) ≤ (a3 - b3) ^ 2 := sq_nonneg _
    have e1 : (a1 - b1) ^ 2 = 0 := by nlinarith
    have e2 : (a2 - b2) ^ 2 = 0 := by nlinarith
    have e3 : (a3 - b3) ^ 2 = 0 := by nlinarith
    have f1 : a1 = b1 := by
      have := pow_eq_zero_iff (n := 2) (by norm_num) |>.mp e1
      linarith [sub_eq_zero.mp this]
    have f2 : a2 = b2 := by
      have := pow_eq_zero_iff (n := 2) (by norm_num) |>.mp e2
      linarith [sub_eq_zero.mp this]
    have f3 : a3 = b3 := by
      have := pow_eq_zero_iff (n := 2) (by norm_num) |>.mp e3
      linarith [sub_eq_zero.mp this]
    simp [f1, f2, f3]
  · intro h
    injection h with h1 h23
    injection h23 with h2 h3
    rw [h1, h2, h3]
    ring

theorem distOpt_nonneg (p q : Nat × Nat × Nat) (d : ℤ)
    (h : distOpt p q = some d) : 0 ≤ d := by
  unfold distOpt at h
  cases hp : ptValZ p <;> rw [hp] at h
  · exact Option.noConfusion h
  · cases hq : ptValZ q <;> rw [hq] at h
    · exact Option.noConfusion h
    · injection h with h2
      exact h2 ▸ sqDistZ_nonneg _ _

theorem distOpt_zero (p q : Nat × Nat × Nat) (h : distOpt p q = some 0) :
    ptValZ p = ptValZ q := by
  unfold distOpt at h
  cases hp : ptValZ p <;> rw [hp] at h
  · exact Option.noConfusion h
  · cases hq : ptValZ q <;> rw [hq] at h
    · exact Option.noConfusion h
    · injection h with h2
      rw [(sqDistZ_eq_zero_iff _ _).mp h2]

theorem distOpt_of_eq (p q : Nat × Nat × Nat) (hp : ptValZ p = ptValZ q)
    (hs : (ptValZ q).isSome = true) : distOpt p q = some 0 := by
  obtain ⟨v, hv⟩ := Option.isSome_iff_exists.mp hs
  unfold distOpt
  rw [hp, hv]
  have h0 : sqDistZ v v = 0 := (sqDistZ_eq_zero_iff v v).mpr rfl
  simp [h0]

/-- C9: in the label-transfer step, a new vertex whose stored float32
position has exactly the value of some original finite vertex position
receives that original vertex's label, provided every original vertex
at that exact position carries the same label.  Coincidence of
positions is stated through `ptValZ`, the exact value of the stored
float32 coordinates. -/
theorem c9_zero_distance_label (orig : List (Nat × Nat × Nat))
    (labels : List Nat) (newVerts : List (Nat × Nat × Nat)) (j i : Nat)
    (hj : j < newVerts.length) (hi : i < orig.length)
    (hfin : (ptValZ (newVerts.get ⟨j, hj⟩)).isSome = true)
    (hco : ptValZ (orig.get ⟨i, hi⟩) = ptValZ (newVerts.get ⟨j, hj⟩))
    (huniq : ∀ k (hk : k < orig.length),
      ptValZ (orig.get ⟨k, hk⟩) = ptValZ (newVerts.get ⟨j, hj⟩) →
      labels.getD k 0 = labels.getD i 0) :
    (transferLabels orig labels newVerts).getD j 0 = labels.getD i 0 := by
  have hq0 : distOpt (orig.get ⟨i, hi⟩) (newVerts.get ⟨j, hj⟩) = some 0 :=
    distOpt_of_eq _ _ hco hfin
  obtain ⟨d2, hd2, hle⟩ := nnAux_best_le (newVerts.get ⟨j, hj⟩) orig 0 0 none
    (orig.get ⟨i, hi⟩) 0 (List.get_mem orig i hi) hq0
  have hach := nnAux_achieves (newVerts.get ⟨j, hj⟩)
    (fun k dk => ∃ hk : k < orig.length,
      distOpt (orig.get ⟨k, hk⟩) (newVerts.get ⟨j, hj⟩) = some dk)
    orig 0 0 none (fun b hb => Option.noConfusion hb)
    (fun k hk dk hdk => by rw [Nat.zero_add]; exact ⟨hk, hdk⟩) d2 hd2
  obtain ⟨hk, hdk⟩ := hach
  have hz : d2 = 0 := le_antisymm hle (distOpt_nonneg _ _ d2 hdk)
  subst hz
  have heqv := distOpt_zero _ _ hdk
  have hlab := huniq _ hk heqv
  have hstep : (transferLabels orig labels newVerts).getD j 0 =
      labels.getD (nearestIdx orig (newVerts.get ⟨j, hj⟩)) 0 := by
    simp only [transferLabels]
    rw [List.getD_eq_getElem _ _ (by simpa using hj), List.getElem_map]
    rfl
  rw [hstep]
  exact hlab

set_option maxRecDepth 4000 in
/-- Witness for C9: a new vertex at float32 position (1, 0, 0), which
coincides with the second original vertex, receives that vertex's
label 9. -/
theorem c9_zero_distance_label_witness :
    (transferLabels [(0, 0, 0), (1065353216, 0, 0)] [5, 9]
      [(1065353216, 0, 0)]).getD 0 0 = ([5, 9] : List Nat).getD 1 0 :=
  c9_zero_distance_label [(0, 0, 0), (1065353216, 0, 0)] [5, 9]
    [(1065353216, 0, 0)] 0 1 (by decide) (by decide) (by decide) (by decide)
    (by decide)

/-! ### Claim C10: MAT-to-VTI voxel remap and truncation -/

/-- C10: the output byte for every voxel is 0 for the background value
50 and the input value reduced modulo 256 otherwise; in particular all
non-background values below 256 are written unchanged. -/
theorem c10_mat_vti_remap (vol : List Nat) (_h16 : ∀ v ∈ vol, v < 65536) :
    (convert_mat_to_vti vol).length = vol.length ∧
    (∀ j (hj : j < vol.length),
      (convert_mat_to_vti vol).getD j 0 =
        (if vol.get ⟨j, hj⟩ = 50 then 0 else (vol.get ⟨j, hj⟩) % 256)) ∧
    (∀ j (hj : j < vol.length), vol.get ⟨j, hj⟩ ≠ 50 →
      vol.get ⟨j, hj⟩ < 256 →
      (convert_mat_to_vti vol).getD j 0 = vol.get ⟨j, hj⟩) := by
  have hlen : (convert_mat_to_vti vol).length = vol.length := by
    simp [convert_mat_to_vti]
  have hval : ∀ j (hj : j < vol.length),
      (convert_mat_to_vti vol).getD j 0 =
        (if vol.get ⟨j, hj⟩ = 50 then 0 else (vol.get ⟨j, hj⟩) % 256) := by
    intro j hj
    rw [List.getD_eq_getElem _ _
      (show j < (convert_mat_to_vti vol).length by omega)]
    simp only [convert_mat_to_vti]
    rw [List.getElem_map, List.getElem_map]
    by_cases h50 : vol[j] = 50
    · simp [h50, BACKGROUND_VALUE, TRANSPARENT_VALUE]
    · simp [BACKGROUND_VALUE, TRANSPARENT_VALUE, h50]
  refine ⟨hlen, hval, ?_⟩
  intro j hj hne hlt
  rw [hval j hj, if_neg hne]
  exact Nat.mod_eq_of_lt hlt

/-- Witness for C10: the volume [50, 7, 306, 255] maps to
[0, 7, 50, 255]: background 50 becomes 0, 7 and 255 are unchanged, and
306 is truncated to 50 by the uint8 cast. -/
theorem c10_mat_vti_remap_witness :
    (convert_mat_to_vti [50, 7, 306, 255]).getD 2 0 =
      (if ([50, 7, 306, 255] : List Nat).get ⟨2, by decide⟩ = 50 then 0
       else ([50, 7, 306, 255] : List Nat).get ⟨2, by decide⟩ % 256) :=
  (c10_mat_vti_remap [50, 7, 306, 255] (by decide)).2.1 2 (by decide)

/-! ### Claim C8: absent-field defaults -/

/-- C8: an empty attenuation exponent cell yields output field b = 1,
an empty attenuation alpha0 cell yields output field alpha0 = 0, while
empty cells of the optional numeric fields become the absent marker
`none` rather than a default. -/
theorem c8_absent_defaults (emap : List Char → Option Elemental)
    (r : MainRow) :
    (r.attenuation_b = none →
      (tissue_data emap r).properties.acoustic.attenuation.b = 1) ∧
    (r.attenuation_alpha0 = none →
      (tissue_data emap r).properties.acoustic.attenuation.alpha0 = 0) ∧
    (r.density_av = none →
      (tissue_data emap r).properties.thermal.density = none) ∧
    (r.heat_capacity_av = none →
      (tissue_data emap r).properties.thermal.heatCapacity = none) ∧
    (r.sound_speed_av = none →
      (tissue_data emap r).properties.acoustic.speedOfSound = none) ∧
    (r.lf_conductivity_av = none →
      (tissue_data emap r).properties.dielectric.lfConductivity = none) ∧
    (r.water_content = none →
      (tissue_data emap r).properties.waterContent = none) := by
  refine ⟨?_, ?_, ?_, ?_, ?_, ?_, ?_⟩ <;>
    (intro h; simp [tissue_data, h])

/-- Witness for C8: the all-empty row yields b = 1, alpha0 = 0 and an
absent density. -/
theorem c8_absent_defaults_witness :
    (tissue_data noElem defaultRow).properties.acoustic.attenuation.b = 1 ∧
    (tissue_data noElem defaultRow).properties.acoustic.attenuation.alpha0
      = 0 ∧
    (tissue_data noElem defaultRow).properties.thermal.density = none :=
  ⟨(c8_absent_defaults noElem defaultRow).1 rfl,
   (c8_absent_defaults noElem defaultRow).2.1 rfl,
   (c8_absent_defaults noElem defaultRow).2.2.1 rfl⟩

/-! ### Claim C6: Cole-Cole tau values are scaled, not verbatim -/

/-- C6 counterexample: a row whose first dispersion term has source tau
cell 2 produces output tau `2 * 1e-12`, which differs from the source
value 2: the builder applies unit-conversion arithmetic to tau. -/
theorem c6_tau_scaled_counterexample :
    cole_cole c6Row =
      some { ef := 4,
             terms := [{ delta := 1, tau := 2 * tauScale 0, alpha := 0 }],
             sigmaIonic := 0 } ∧
    (2 : ℚ) * tauScale 0 ≠ 2 := by
  constructor
  · rfl
  · norm_num [tauScale]

/-- C6 amended: ef, the deltas and the alphas pass through verbatim
(with 0 for an empty alpha or sigma cell), but each tau value is
multiplied by the unit factor of its term (1e-12, 1e-9, 1e-6, 1e-3);
an empty or zero tau cell yields 0. -/
theorem c6_cole_fields (r : MainRow)
    (e d1 t1 a1 d2 t2 a2 d3 t3 a3 d4 t4 a4 : ℚ)
    (he : r.cole_ef = some e)
    (hd1 : r.cole_delta1 = some d1) (ht1 : r.cole_tau1 = some t1)
    (h01 : t1 ≠ 0) (ha1 : r.cole_alpha1 = some a1)
    (hd2 : r.cole_delta2 = some d2) (ht2 : r.cole_tau2 = some t2)
    (h02 : t2 ≠ 0) (ha2 : r.cole_alpha2 = some a2)
    (hd3 : r.cole_delta3 = some d3) (ht3 : r.cole_tau3 = some t3)
    (h03 : t3 ≠ 0) (ha3 : r.cole_alpha3 = some a3)
    (hd4 : r.cole_delta4 = some d4) (ht4 : r.cole_tau4 = some t4)
    (h04 : t4 ≠ 0) (ha4 : r.cole_alpha4 = some a4) :
    cole_cole r =
      some { ef := e,
             terms := [⟨d1, t1 * tauScale 0, a1⟩, ⟨d2, t2 * tauScale 1, a2⟩,
               ⟨d3, t3 * tauScale 2, a3⟩, ⟨d4, t4 * tauScale 3, a4⟩],
             sigmaIonic := r.cole_sig.getD 0 } := by
  simp [cole_cole, coleTermOf, he, hd1, ht1, h01, ha1, hd2, ht2, h02, ha2,
    hd3, ht3, h03, ha3, hd4, ht4, h04, ha4]

/-- Witness for C6 amended: the four-term row with taus 1 yields the
four unit factors as output taus and its other cells verbatim. -/
theorem c6_cole_fields_witness :
    cole_cole c6FullRow =
      some { ef := 7,
             terms := [⟨1, 1 * tauScale 0, 5⟩, ⟨2, 1 * tauScale 1, 5⟩,
               ⟨3, 1 * tauScale 2, 5⟩, ⟨4, 1 * tauScale 3, 5⟩],
             sigmaIonic := 6 } :=
  c6_cole_fields c6FullRow 7 1 1 5 2 1 5 3 1 5 4 1 5 rfl
    rfl rfl (by simp) rfl rfl rfl (by simp) rfl rfl rfl (by simp) rfl
    rfl rfl (by simp) rfl

/-! ### Claim C7: alias expansion -/

/-- C7 counterexample: when a later row's primary name Adipose equals
an alias of the Fat row, the output entry under Adipose is the later
row's record, which differs from the Fat row's record: dict assignment
overwrites, so the k+1 entries of the Fat row are not all the
identical record and the unconditional claim fails. -/
theorem c7_alias_overwrite_counterexample :
    lookupStore (tissue_properties noElem [fatRow, overwriteRow])
        (strL "Adipose") =
      some (tissue_data noElem overwriteRow) ∧
    tissue_data noElem overwriteRow ≠ tissue_data noElem fatRow := by
  constructor
  · rfl
  · decide

theorem foldl_insert_lookup (v : TissueData) (keys : List (List Char)) :
    ∀ (s : List (List Char × TissueData)) (k : List Char),
      (k ∈ keys ∨ lookupStore s k = some v) →
      lookupStore (keys.foldl (fun acc k2 => (k2, v) :: acc) s) k =
        some v := by
  induction keys with
  | nil =>
    intro s k h
    exact h.resolve_left (fun h2 => absurd h2 (List.not_mem_nil k))
  | cons k0 keys ih =>
    intro s k h
    rw [List.foldl_cons]
    refine ih ((k0, v) :: s) k ?_
    rcases h with h | h
    · rcases List.mem_cons.mp h with rfl | hmem
      · right
        simp [lookupStore]
      · exact Or.inl hmem
    · right
      by_cases he : k0 = k
      · simp [lookupStore, he]
      · simpa [lookupStore, he] using h

theorem foldl_insert_lookup_skip (v : TissueData) (keys : List (List Char)) :
    ∀ (s : List (List Char × TissueData)) (k : List Char), k ∉ keys →
      lookupStore (keys.foldl (fun acc k2 => (k2, v) :: acc) s) k =
        lookupStore s k := by
  induction keys with
  | nil => intro s k _; rfl
  | cons k0 keys ih =>
    intro s k h
    have hk0 : k0 ≠ k := fun he => h (he ▸ List.mem_cons_self k0 keys)
    have hmem : k ∉ keys := fun hm => h (List.mem_cons_of_mem k0 hm)
    rw [List.foldl_cons, ih ((k0, v) :: s) k hmem]
    simp [lookupStore, hk0]

theorem lookupStore_processRow_mem (emap : List Char → Option Elemental)
    (s : List (List Char × TissueData)) (r : MainRow) (k : List Char)
    (hname : pyStrip r.tissue_name ≠ []) (hk : k ∈ rowKeys r) :
    lookupStore (processRow emap s r) k = some (tissue_data emap r) := by
  unfold processRow
  rw [if_neg hname]
  exact foldl_insert_lookup (tissue_data emap r) (rowKeys r) s k (Or.inl hk)

theorem lookupStore_processRow_skip (emap : List Char → Option Elemental)
    (s : List (List Char × TissueData)) (r : MainRow) (k : List Char)
    (hk : k ∉ rowKeys r) :
    lookupStore (processRow emap s r) k = lookupStore s k := by
  unfold processRow
  by_cases hname : pyStrip r.tissue_name = []
  · rw [if_pos hname]
  · rw [if_neg hname]
    exact foldl_insert_lookup_skip (tissue_data emap r) (rowKeys r) s k hk

/-- C7 amended: a row with a nonblank primary name is stored in the output
mapping under its primary name and under every alias of its alias
cell, and every one of those entries is the identical nested record,
provided no later row writes one of those keys (a later duplicate
name would overwrite the dict entry). -/
theorem c7_alias_expansion (emap : List Char → Option Elemental)
    (pre post : List MainRow) (r : MainRow)
    (hname : pyStrip r.tissue_name ≠ [])
    (hlater : ∀ r2 ∈ post, ∀ k ∈ rowKeys r, k ∉ rowKeys r2) :
    ∀ k ∈ rowKeys r,
      lookupStore (tissue_properties emap (pre ++ r :: post)) k =
        some (tissue_data emap r) := by
  intro k hk
  unfold tissue_properties
  rw [List.foldl_append, List.foldl_cons]
  have hbase : lookupStore
      (processRow emap (List.foldl (processRow emap) [] pre) r) k =
      some (tissue_data emap r) :=
    lookupStore_processRow_mem emap _ r k hname hk
  have hpres : ∀ (ps : List MainRow) (s : List (List Char × TissueData)),
      (∀ r2 ∈ ps, k ∉ rowKeys r2) →
      lookupStore s k = some (tissue_data emap r) →
      lookupStore (List.foldl (processRow emap) s ps) k =
        some (tissue_data emap r) := by
    intro ps
    induction ps with
    | nil => intro s _ hs; exact hs
    | cons r2 ps ih =>
      intro s hno hs
      rw [List.foldl_cons]
      refine ih (processRow emap s r2) (fun r3 h3 => hno r3 (List.mem_cons_of_mem r2 h3)) ?_
      rw [lookupStore_processRow_skip emap s r2 k (hno r2 (List.mem_cons_self r2 ps))]
      exact hs
  exact hpres post _ (fun r2 h2 => hlater r2 h2 k hk) hbase

/-- Witness for C7: the record of the Fat row appears under Fat,
Adipose and Fatty Tissue, each time as the identical record. -/
theorem c7_alias_expansion_witness :
    lookupStore (tissue_properties noElem [fatRow]) (strL "Fat") =
      some (tissue_data noElem fatRow) ∧
    lookupStore (tissue_properties noElem [fatRow]) (strL "Adipose") =
      some (tissue_data noElem fatRow) ∧
    lookupStore (tissue_properties noElem [fatRow]) (strL "Fatty Tissue") =
      some (tissue_data noElem fatRow) :=
  ⟨c7_alias_expansion noElem [] [] fatRow (by decide) (by decide)
     (strL "Fat") (by decide),
   c7_alias_expansion noElem [] [] fatRow (by decide) (by decide)
     (strL "Adipose") (by decide),
   c7_alias_expansion noElem [] [] fatRow (by decide) (by decide)
     (strL "Fatty Tissue") (by decide)⟩
